import Mathlib

/-!
Verification development for the go-update-orchestrator repository.

The Go sources are embedded shallowly: Go maps become association lists,
pointers become `Option`, `int`/`int64` become `Int`, `time.Time` and
`time.Duration` instants become abstract integer instants passed in as
`now` parameters, and `float64` backoff arithmetic becomes `ℚ`.
-/

namespace Assoc

/-- First-match lookup in an association list (Go map read `m[k]`). -/
def lookupA {α : Type} (k : String) : List (String × α) → Option α
  | [] => none
  | (k', v) :: rest => if k' = k then some v else lookupA k rest

/-- Write `m[k] = v` into an association list: replace the first entry with
key `k`, or append a fresh entry when the key is absent. -/
def setA {α : Type} (k : String) (v : α) : List (String × α) → List (String × α)
  | [] => [(k, v)]
  | (k', v') :: rest => if k' = k then (k, v) :: rest else (k', v') :: setA k v rest

end Assoc

namespace Core

/-- Device connectivity status (pkg/core/device.go `DeviceStatus`). -/
inductive DeviceStatus
  | online
  | offline
  | unknown
  deriving DecidableEq, Repr

/-- pkg/core/device.go `Device`.  `*time.Time` fields become `Option Int`
instants; `map[string]string` becomes an association list. -/
structure Device where
  id : String
  name : String
  address : String
  status : DeviceStatus
  lastSeen : Option Int
  firmwareVersion : String
  location : String
  metadata : List (String × String)
  createdAt : Int
  updatedAt : Int
  deriving DecidableEq, Repr

/-- pkg/core/device.go `Filter`. -/
structure Filter where
  ids : List String
  status : Option DeviceStatus
  location : String
  minFirmware : String
  maxFirmware : String
  tags : List (String × String)
  lastSeenBefore : Option Int
  lastSeenAfter : Option Int
  limit : Int
  offset : Int
  deriving DecidableEq, Repr

/-- The zero `Filter` (all Go zero values): matches every device. -/
def emptyFilter : Filter :=
  { ids := [], status := none, location := "", minFirmware := "", maxFirmware := ""
    tags := [], lastSeenBefore := none, lastSeenAfter := none, limit := 0, offset := 0 }

/-- pkg/core/update.go `RolloutPhase`. -/
structure RolloutPhase where
  name : String
  percentage : Int
  waitTime : Int
  successRate : Int
  deriving DecidableEq, Repr

/-- pkg/core/update.go `UpdateStatus` constants.  Go declares
`type UpdateStatus string`, so statuses are modelled as strings. -/
def statusPending : String := "pending"

def statusScheduled : String := "scheduled"

def statusInProgress : String := "in_progress"

def statusCompleted : String := "completed"

def statusFailed : String := "failed"

def statusCancelled : String := "cancelled"

/-- pkg/core/update.go `Update`.  The `DeviceFilter *Filter` pointer becomes
`Option Filter`; a `none` models a nil pointer. -/
structure Update where
  id : String
  name : String
  payloadURL : String
  deviceIDs : List String
  deviceFilter : Option Filter
  strategy : String
  scheduledAt : Option Int
  windowStart : Option Int
  windowEnd : Option Int
  rolloutPhases : List RolloutPhase
  metadata : List (String × String)
  createdAt : Int
  deriving DecidableEq, Repr

end Core

namespace MemRegistry

/-- pkg/registry/registry.go `matchesFilter` (in-memory registry).
Checks id set, status, location, metadata tags and last-seen bounds.
The source contains no firmware-band check: its final comment states that
`MinFirmware`/`MaxFirmware` filtering is skipped. -/
def matchesFilter (device : Core.Device) (filter : Core.Filter) : Bool :=
  -- Filter by specific IDs
  (if filter.ids.length > 0 then filter.ids.any (fun i => device.id = i) else true) &&
  -- Filter by status
  (match filter.status with
    | some s => device.status = s
    | none => true) &&
  -- Filter by location
  (if filter.location ≠ "" then device.location = filter.location else true) &&
  -- Filter by metadata tags
  (filter.tags.all (fun kv =>
    match Assoc.lookupA kv.1 device.metadata with
    | some w => w = kv.2
    | none => false)) &&
  -- Filter by last seen time
  (match filter.lastSeenBefore, device.lastSeen with
    | some bound, some seen => !(seen > bound)
    | _, _ => true) &&
  (match filter.lastSeenAfter, device.lastSeen with
    | some bound, some seen => !(seen < bound)
    | _, _ => true)

/-- pkg/registry/registry.go in-memory `List`: keep the devices matching the
filter, then apply `Offset`/`Limit` pagination by slicing.  The Go map
iteration order is abstracted as the order of the input list.  `none`
models the Go panic of `devices[start:end]` on a negative `Offset`. -/
def listDevices (devices : List Core.Device) (filter : Core.Filter) :
    Option (List Core.Device) :=
  let matched := devices.filter (fun d => matchesFilter d filter)
  let start := filter.offset
  if start ≥ (matched.length : Int) then some []
  else if start < 0 then none
  else
    let stop : Int :=
      if filter.limit > 0 ∧ start + filter.limit < (matched.length : Int) then
        start + filter.limit
      else (matched.length : Int)
    some (((matched.drop start.toNat).take (stop - start).toNat))

end MemRegistry

namespace Retry

/-- A classified action error.  The delivery layer tags errors as retryable
or non-retryable (pkg/delivery/http/http.go wraps 4xx responses in
`retry.NonRetryable`); `cancelled` stands for `ctx.Err()`. -/
inductive RError
  | retryable (msg : String)
  | nonRetryable (msg : String)
  | cancelled
  deriving DecidableEq, Repr

/-- `IsNonRetryable`: whether an error carries the non-retryable tag. -/
def isNonRetryable : RError → Bool
  | .nonRetryable _ => true
  | _ => false

/-- internal/retry `Config`.  Durations are rationals (Go `time.Duration`
nanoseconds); the multiplier is a rational standing for the `float64`. -/
structure Config where
  maxAttempts : Int
  initialDelay : ℚ
  maxDelay : ℚ
  multiplier : ℚ
  deriving DecidableEq, Repr

/-- internal/retry `DefaultConfig`: 3 attempts, 1s initial delay, 30s max
delay, multiplier 2.0 (durations in seconds here). -/
def defaultConfig : Config :=
  { maxAttempts := 3, initialDelay := 1, maxDelay := 30, multiplier := 2 }

/-- internal/retry `calculateBackoff`:
`delay = InitialDelay * Multiplier^attempt`, capped at `MaxDelay`. -/
def calculateBackoff (config : Config) (attempt : Nat) : ℚ :=
  let delay := config.initialDelay * config.multiplier ^ attempt
  if delay > config.maxDelay then config.maxDelay else delay

/-- Outcome of a `Do` call: the returned error (`none` = nil/success), how
many times the action was invoked, and the backoff sleeps performed. -/
structure DoResult where
  result : Option RError
  invocations : Nat
  sleeps : List ℚ
  deriving DecidableEq, Repr

/-- Loop body of the pre-enhancement `Do` found in the repository snapshot
src/unnamed/part_013: every error is retried until attempts run out.
`fn i` is the error returned by the i-th invocation of the action (`none` =
success); `cancelledDuringSleep i` tells whether the context fires during
the sleep that follows attempt `i`.  `remaining` counts loop iterations
still allowed, `attempt` is the Go loop counter. -/
def doLegacyFrom (config : Config) (fn : Nat → Option RError)
    (cancelledDuringSleep : Nat → Bool) :
    (remaining : Nat) → (attempt : Nat) → (sleeps : List ℚ) →
      (lastErr : Option RError) → DoResult
  | 0, attempt, sleeps, lastErr => ⟨lastErr, attempt, sleeps⟩
  | remaining + 1, attempt, sleeps, _ =>
    match fn attempt with
    | none => ⟨none, attempt + 1, sleeps⟩
    | some err =>
      match remaining with
      | 0 => ⟨some err, attempt + 1, sleeps⟩  -- attempt == MaxAttempts-1: break
      | r + 1 =>
        if cancelledDuringSleep attempt then ⟨some .cancelled, attempt + 1, sleeps⟩
        else
          doLegacyFrom config fn cancelledDuringSleep (r + 1) (attempt + 1)
            (sleeps ++ [calculateBackoff config attempt]) (some err)

/-- src/unnamed/part_013 `Do` (pre-enhancement snapshot): run `fn` up to
`MaxAttempts` times with exponential backoff; a negative `MaxAttempts`
makes the loop run zero times and return nil. -/
def doLegacy (config : Config) (fn : Nat → Option RError)
    (cancelledDuringSleep : Nat → Bool) : DoResult :=
  doLegacyFrom config fn cancelledDuringSleep config.maxAttempts.toNat 0 [] none

/-- Modelled from the spec: the current internal/retry/retry.go `Do` is not
under src/ (src/unnamed/part_013 is a pre-enhancement snapshot without the
non-retryable branch, while its caller pkg/delivery/http/http.go constructs
`retry.NonRetryable` and the repository documents automatic abort on
non-retryable errors).  Per §4.2: an error tagged non-retryable makes `do`
return immediately without further attempts; otherwise behave as the
legacy loop. -/
def doFrom (config : Config) (fn : Nat → Option RError)
    (cancelledDuringSleep : Nat → Bool) :
    (remaining : Nat) → (attempt : Nat) → (sleeps : List ℚ) →
      (lastErr : Option RError) → DoResult
  | 0, attempt, sleeps, lastErr => ⟨lastErr, attempt, sleeps⟩
  | remaining + 1, attempt, sleeps, _ =>
    match fn attempt with
    | none => ⟨none, attempt + 1, sleeps⟩
    | some err =>
      if isNonRetryable err then ⟨some err, attempt + 1, sleeps⟩
      else
        match remaining with
        | 0 => ⟨some err, attempt + 1, sleeps⟩
        | r + 1 =>
          if cancelledDuringSleep attempt then ⟨some .cancelled, attempt + 1, sleeps⟩
          else
            doFrom config fn cancelledDuringSleep (r + 1) (attempt + 1)
              (sleeps ++ [calculateBackoff config attempt]) (some err)

/-- Modelled from the spec: the enhanced internal/retry/retry.go `Do`
(missing from src/), entering the loop at attempt 0 with no error and no
sleeps recorded. -/
def Do (config : Config) (fn : Nat → Option RError)
    (cancelledDuringSleep : Nat → Bool) : DoResult :=
  doFrom config fn cancelledDuringSleep config.maxAttempts.toNat 0 [] none

end Retry

namespace MemTracker

/-- pkg/progress `DeviceProgress` as stored by the in-memory tracker
(src/unnamed/part_024).  `EndTime *time.Time` becomes `Option Int`. -/
structure DeviceProgress where
  deviceID : String
  status : String
  bytesTransferred : Int
  startTime : Int
  endTime : Option Int
  deriving DecidableEq, Repr

/-- src/unnamed/part_024 `updateState`: the per-update record held by the
in-memory tracker; `deviceProgress` is the Go map as an association list. -/
structure UpdateState where
  updateID : String
  totalDevices : Int
  completedDevices : Int
  failedDevices : Int
  inProgressDevices : Int
  bytesTransferred : Int
  startTime : Int
  endTime : Option Int
  deviceProgress : List (String × DeviceProgress)
  deriving DecidableEq, Repr

/-- The tracker's `updates` map. -/
abbrev Tracker := List (String × UpdateState)

/-- src/unnamed/part_024 `Start`: store a fresh state (unconditionally
overwriting any previous record for the same id) with `startTime = now`,
zero counters and no device entries. -/
def start (t : Tracker) (updateID : String) (totalDevices : Int) (now : Int) : Tracker :=
  Assoc.setA updateID
    { updateID := updateID, totalDevices := totalDevices, completedDevices := 0
      failedDevices := 0, inProgressDevices := 0, bytesTransferred := 0
      startTime := now, endTime := none, deviceProgress := [] } t

/-- The decrement switch of `UpdateDevice` over the device's old status. -/
def decCounter (st : UpdateState) (oldStatus : String) : UpdateState :=
  if oldStatus = Core.statusInProgress then
    { st with inProgressDevices := st.inProgressDevices - 1 }
  else if oldStatus = Core.statusCompleted then
    { st with completedDevices := st.completedDevices - 1 }
  else if oldStatus = Core.statusFailed then
    { st with failedDevices := st.failedDevices - 1 }
  else st

/-- The increment switch of `UpdateDevice` over the new status. -/
def incCounter (st : UpdateState) (newStatus : String) : UpdateState :=
  if newStatus = Core.statusInProgress then
    { st with inProgressDevices := st.inProgressDevices + 1 }
  else if newStatus = Core.statusCompleted then
    { st with completedDevices := st.completedDevices + 1 }
  else if newStatus = Core.statusFailed then
    { st with failedDevices := st.failedDevices + 1 }
  else st

/-- The device record `UpdateDevice` works on: the stored one, or a fresh
record whose status is the Go zero value `""` and whose start time is now. -/
def getOrCreateDp (st : UpdateState) (deviceID : String) (now : Int) : DeviceProgress :=
  match Assoc.lookupA deviceID st.deviceProgress with
  | some d => d
  | none =>
    { deviceID := deviceID, status := "", bytesTransferred := 0
      startTime := now, endTime := none }

/-- The state transformation of src/unnamed/part_024 `UpdateDevice` on a
tracked update: get or create the device record; decrement the counter of
its old status and increment that of the new one; stamp `endTime` on a
terminal status; store the new status; assign `bytesTransferred` on the
device record and add it to the update total. -/
def updateDeviceState (st : UpdateState) (deviceID status : String)
    (bytesTransferred : Int) (now : Int) : UpdateState :=
  let dp := getOrCreateDp st deviceID now
  let st2 := incCounter (decCounter st dp.status) status
  let dp' : DeviceProgress :=
    { dp with
      status := status
      bytesTransferred := bytesTransferred
      endTime :=
        if status = Core.statusCompleted ∨ status = Core.statusFailed then some now
        else dp.endTime }
  { st2 with
    deviceProgress := Assoc.setA deviceID dp' st.deviceProgress
    bytesTransferred := st2.bytesTransferred + bytesTransferred }

/-- src/unnamed/part_024 `UpdateDevice`: silently ignore unknown updates,
otherwise apply `updateDeviceState` to the tracked record. -/
def updateDevice (t : Tracker) (updateID deviceID : String) (status : String)
    (bytesTransferred : Int) (now : Int) : Tracker :=
  match Assoc.lookupA updateID t with
  | none => t
  | some st => Assoc.setA updateID (updateDeviceState st deviceID status bytesTransferred now) t

/-- src/unnamed/part_024 `Complete`: stamp the update's end time; counters
are untouched; unknown updates are ignored. -/
def complete (t : Tracker) (updateID : String) (now : Int) : Tracker :=
  match Assoc.lookupA updateID t with
  | none => t
  | some st => Assoc.setA updateID { st with endTime := some now } t

/-- The snapshot returned by `GetProgress` (pkg/progress `Progress`). -/
structure Progress where
  updateID : String
  totalDevices : Int
  completedDevices : Int
  failedDevices : Int
  inProgressDevices : Int
  bytesTransferred : Int
  startTime : Int
  estimatedEnd : Option Int
  deviceProgress : List (String × DeviceProgress)
  deriving DecidableEq, Repr

/-- The estimated-end computation of src/unnamed/part_024 `GetProgress`:
defined only when some device is terminal and
`inProgress + completed + failed < totalDevices`; then
`now + (elapsed tdiv done) * (total - done)` (Go integer division
truncates toward zero).  Both `time.Now()` reads of the source are
modelled by the single instant `now`. -/
def estimatedEndOf (st : UpdateState) (now : Int) : Option Int :=
  if st.completedDevices + st.failedDevices > 0 ∧
      st.inProgressDevices + st.completedDevices + st.failedDevices < st.totalDevices then
    let elapsed := now - st.startTime
    let done := st.completedDevices + st.failedDevices
    let avgTimePerDevice := Int.tdiv elapsed done
    let remaining := st.totalDevices - done
    some (now + avgTimePerDevice * remaining)
  else none

/-- src/unnamed/part_024 `GetProgress`: error (`none`) on unknown updates,
otherwise a value snapshot of the state with the estimated end time. -/
def getProgress (t : Tracker) (updateID : String) (now : Int) : Option Progress :=
  match Assoc.lookupA updateID t with
  | none => none
  | some st =>
    some
      { updateID := st.updateID
        totalDevices := st.totalDevices
        completedDevices := st.completedDevices
        failedDevices := st.failedDevices
        inProgressDevices := st.inProgressDevices
        bytesTransferred := st.bytesTransferred
        startTime := st.startTime
        estimatedEnd := estimatedEndOf st now
        deviceProgress := st.deviceProgress }

/-- One recorded call into the tracker, for reasoning about arbitrary
operation sequences. -/
inductive Op
  | start (updateID : String) (totalDevices : Int) (now : Int)
  | updateDevice (updateID deviceID status : String) (bytesTransferred : Int) (now : Int)
  | complete (updateID : String) (now : Int)
  deriving DecidableEq, Repr

/-- Apply one tracker operation. -/
def applyOp (t : Tracker) : Op → Tracker
  | .start u total now => start t u total now
  | .updateDevice u d s b now => updateDevice t u d s b now
  | .complete u now => complete t u now

/-- Apply a sequence of tracker operations to the empty tracker state. -/
def runOps (ops : List Op) : Tracker :=
  ops.foldl applyOp []

end MemTracker

namespace Orchestrator

/-- pkg/orchestrator/execute.go `GetStatus`, status determination: once
`completed + failed == total`, failed devices force `failed`, otherwise
`completed`; in every other case `in_progress`. -/
def getStatusOf (prog : MemTracker.Progress) : String :=
  if prog.completedDevices + prog.failedDevices = prog.totalDevices then
    if prog.failedDevices > 0 then Core.statusFailed else Core.statusCompleted
  else Core.statusInProgress

/-- Outcome of the device task `updateDevice`
(pkg/orchestrator/execute.go): how many times the task itself invoked
`Delivery.Push` and the terminal status it recorded in the tracker. -/
structure DeviceTaskResult where
  pushInvocations : Nat
  recordedStatus : String
  deriving DecidableEq, Repr

/-- pkg/orchestrator/execute.go `updateDevice` for one device: mark
in-progress, seek the payload to zero (failure marks the device failed
without calling Push), invoke `Delivery.Push` once, and record `failed`
on any returned error, `completed` otherwise.  `pushResult` is the error
returned by that single `Delivery.Push` call. -/
def updateDeviceTask (seekOk : Bool) (pushResult : Option Retry.RError) :
    DeviceTaskResult :=
  if seekOk then
    match pushResult with
    | some _ => ⟨1, Core.statusFailed⟩
    | none => ⟨1, Core.statusCompleted⟩
  else ⟨0, Core.statusFailed⟩

/-- pkg/delivery/http/http.go `Push`: the transport attempt (request
construction, execution and error classification) is abstracted as
`attempt`, and the whole attempt is wrapped in `retry.Do` with the
delivery's retry configuration. -/
def httpPush (config : Retry.Config) (attempt : Nat → Option Retry.RError)
    (cancelledDuringSleep : Nat → Bool) : Retry.DoResult :=
  Retry.Do config attempt cancelledDuringSleep

/-- The engine's device task composed with the HTTP delivery: the task
makes its single `Delivery.Push` call, and that call internally runs the
retry loop.  Returns the task outcome together with the number of
transport attempts made inside `Push`. -/
def updateDeviceViaHTTP (seekOk : Bool) (config : Retry.Config)
    (attempt : Nat → Option Retry.RError) (cancelledDuringSleep : Nat → Bool) :
    DeviceTaskResult × Nat :=
  if seekOk then
    let r := httpPush config attempt cancelledDuringSleep
    (match r.result with
      | some _ => (⟨1, Core.statusFailed⟩, r.invocations)
      | none => (⟨1, Core.statusCompleted⟩, r.invocations))
  else (⟨0, Core.statusFailed⟩, 0)

/-- Result of the validation prologue of
pkg/orchestrator/execute.go `ExecuteUpdateWithPayload`: an empty id is
rejected; otherwise `*update.DeviceFilter` is dereferenced with no nil
check before `registry.List` is called, so a nil filter reaches the
dereference (`nilFilterDeref` models that panic). -/
inductive ExecCheck
  | errUpdateIDRequired
  | nilFilterDeref
  | listCalled (filter : Core.Filter)
  deriving DecidableEq, Repr

/-- Steps 1-2 of `ExecuteUpdateWithPayload`: validate the id, then
dereference `update.DeviceFilter` for the registry query. -/
def executeUpdatePrologue (update : Core.Update) : ExecCheck :=
  if update.id = "" then .errUpdateIDRequired
  else
    match update.deviceFilter with
    | none => .nilFilterDeref
    | some f => .listCalled f

end Orchestrator

namespace ExecTrace

/-- Observable steps of one `ExecuteUpdateWithPayload` run: the published
events plus two synchronisation markers (`submit d` = the device task is
handed to the worker pool, `stopDone` = `pool.Stop()` has closed the queue
and drained all workers). -/
inductive Ev
  | updateStarted
  | submit (d : String)
  | deviceStarted (d : String)
  | deviceCompleted (d : String)
  | deviceFailed (d : String)
  | updateCompleted
  | stopDone
  deriving DecidableEq, Repr

/-- Steps executed by the orchestrator goroutine itself, in program order
(pkg/orchestrator/execute.go): publish `update.started`, submit every
device task, publish `update.completed`, and only then run the deferred
`pool.Stop()` — the `defer workerPool.Stop()` fires at function return,
after step 7's publish. -/
def mainProg (devices : List String) : List Ev :=
  [Ev.updateStarted] ++ devices.map Ev.submit ++ [Ev.updateCompleted, Ev.stopDone]

/-- Steps executed by the pool task for device `d`
(`updateDevice`): a `device.started` event then the terminal event. -/
def taskProg (d : String) (ok : Bool) : List Ev :=
  [Ev.deviceStarted d, if ok then Ev.deviceCompleted d else Ev.deviceFailed d]

/-- Whether an event is executed by the orchestrator goroutine. -/
def isMainEv : Ev → Bool
  | .updateStarted => true
  | .submit _ => true
  | .updateCompleted => true
  | .stopDone => true
  | _ => false

/-- Whether an event belongs to device `d`'s task. -/
def isTaskEv (d : String) : Ev → Bool
  | .deviceStarted d' => d' = d
  | .deviceCompleted d' => d' = d
  | .deviceFailed d' => d' = d
  | _ => false

/-- No task event of `d` occurs before `submit d`. -/
def noTaskBeforeSubmit (d : String) (tr : List Ev) : Bool :=
  (tr.takeWhile (fun e => e ≠ Ev.submit d)).all (fun e => !isTaskEv d e)

/-- A trace is a run of `ExecuteUpdateWithPayload` iff the orchestrator
steps appear in program order, each device task's steps appear in program
order, a task never starts before its submission, and nothing happens
after `pool.Stop()` has returned (the worker pool guarantees only that all
tasks finish before `Stop` returns). -/
def validTrace (devices : List String) (ok : String → Bool) (tr : List Ev) : Prop :=
  tr.filter isMainEv = mainProg devices ∧
  (∀ d ∈ devices, tr.filter (isTaskEv d) = taskProg d (ok d)) ∧
  (∀ d ∈ devices, noTaskBeforeSubmit d tr = true) ∧
  tr.getLast? = some Ev.stopDone

/-- Event `a` occurs (somewhere) strictly before event `b` in the trace. -/
def occursBefore (a b : Ev) (tr : List Ev) : Prop :=
  ∃ i j, i < j ∧ tr.get? i = some a ∧ tr.get? j = some b

/-- The interleaving that the code permits for a single device `d1`: the
deferred `pool.Stop()` lets the device task run entirely after the
`update.completed` publish. -/
def lateTaskTrace : List Ev :=
  [Ev.updateStarted, Ev.submit "d1", Ev.updateCompleted,
   Ev.deviceStarted "d1", Ev.deviceCompleted "d1", Ev.stopDone]

end ExecTrace

namespace Scheduler

/-- pkg/scheduler/scheduler.go `scheduledUpdate`: an update with its
lifecycle metadata; `cancelFn context.CancelFunc` is modelled by whether a
cancel function is attached. -/
structure ScheduledUpdate where
  update : Core.Update
  status : String
  createdAt : Int
  startedAt : Option Int
  hasCancelFn : Bool
  deriving DecidableEq, Repr

/-- The scheduler's `updates` map. -/
abbrev State := List (String × ScheduledUpdate)

/-- pkg/scheduler/scheduler.go `Cancel`: error on an unknown id; otherwise
fire the cancel function when one is attached and set the status to
`cancelled` — unconditionally, with no check of the current status.
Returns the new state and whether a cancel function was fired. -/
def cancel (s : State) (updateID : String) : Option (State × Bool) :=
  match Assoc.lookupA updateID s with
  | none => none
  | some su =>
    some (Assoc.setA updateID { su with status := Core.statusCancelled } s,
      su.hasCancelFn)

end Scheduler

namespace MemTracker

/-- How many stored device records currently carry status `c`. -/
def countStatus (l : List (String × DeviceProgress)) (c : String) : Nat :=
  l.countP (fun p => p.2.status = c)

/-- The tracker's counters agree with the per-device records: each counter
equals the number of devices currently in that status. -/
def CounterInv (st : UpdateState) : Prop :=
  st.completedDevices = (countStatus st.deviceProgress Core.statusCompleted : ℤ) ∧
  st.failedDevices = (countStatus st.deviceProgress Core.statusFailed : ℤ) ∧
  st.inProgressDevices = (countStatus st.deviceProgress Core.statusInProgress : ℤ)

/-- Every tracked update satisfies `CounterInv`. -/
def TrackerInv (t : Tracker) : Prop :=
  ∀ u st, Assoc.lookupA u t = some st → CounterInv st

end MemTracker

namespace Lex

/-- Lexical (character-by-character) order on strings, the comparison the
specification prescribes for the filter's firmware band. -/
def ltChars : List Char → List Char → Bool
  | [], [] => false
  | [], _ :: _ => true
  | _ :: _, [] => false
  | a :: as, b :: bs => if a < b then true else if a = b then ltChars as bs else false

/-- `lt a b`: `a` is lexically strictly below `b`. -/
def lt (a b : String) : Bool := ltChars a.data b.data

/-- `inBand fw lo hi`: `fw` lies inside the ordered band `[lo, hi]`. -/
def inBand (fw lo hi : String) : Bool := !lt fw lo && !lt hi fw

end Lex

namespace Fixtures

/-- A concrete update with a non-empty id and a nil device filter. -/
def nilFilterUpdate : Core.Update :=
  { id := "u1", name := "demo", payloadURL := "", deviceIDs := []
    deviceFilter := none, strategy := "immediate", scheduledAt := none
    windowStart := none, windowEnd := none, rolloutPhases := []
    metadata := [], createdAt := 0 }

/-- A concrete device whose firmware version lies above the filter band. -/
def fwDevice : Core.Device :=
  { id := "dev1", name := "pos", address := "https://dev1", status := .online
    lastSeen := none, firmwareVersion := "9.9", location := ""
    metadata := [], createdAt := 0, updatedAt := 0 }

/-- A firmware-band filter `1.0 ≤ fw ≤ 2.0`, everything else empty. -/
def fwFilter : Core.Filter :=
  { Core.emptyFilter with minFirmware := "1.0", maxFirmware := "2.0" }

/-- Tracker ops: one update of one device but two distinct devices pushed
to `in_progress`. -/
def overcountOps : List MemTracker.Op :=
  [.start "u" 1 0,
   .updateDevice "u" "d1" Core.statusInProgress 0 1,
   .updateDevice "u" "d2" Core.statusInProgress 0 2]

/-- Tracker ops: two successive byte reports of 5 then 3 for one device. -/
def bytesOps : List MemTracker.Op :=
  [.start "u" 1 0,
   .updateDevice "u" "d" Core.statusInProgress 5 1,
   .updateDevice "u" "d" Core.statusInProgress 3 2]

/-- Tracker ops: two devices, one terminal and one in progress. -/
def etaOps : List MemTracker.Op :=
  [.start "u" 2 0,
   .updateDevice "u" "d1" Core.statusCompleted 0 1,
   .updateDevice "u" "d2" Core.statusInProgress 0 1]

/-- A progress snapshot with one completed and one failed device. -/
def doneProg : MemTracker.Progress :=
  { updateID := "u", totalDevices := 2, completedDevices := 1, failedDevices := 1
    inProgressDevices := 0, bytesTransferred := 0, startTime := 0
    estimatedEnd := none, deviceProgress := [] }

/-- A scheduler state holding a single update in the terminal state
`completed`, with no cancel function attached. -/
def completedSched : Scheduler.State :=
  [("u1", { update := nilFilterUpdate, status := Core.statusCompleted
            createdAt := 0, startedAt := some 1, hasCancelFn := false })]

/-- The tracked state reached by `overcountOps`. -/
def overcountState : MemTracker.UpdateState :=
  { updateID := "u", totalDevices := 1, completedDevices := 0, failedDevices := 0
    inProgressDevices := 2, bytesTransferred := 0, startTime := 0, endTime := none
    deviceProgress :=
      [("d1", { deviceID := "d1", status := "in_progress", bytesTransferred := 0
                startTime := 1, endTime := none }),
       ("d2", { deviceID := "d2", status := "in_progress", bytesTransferred := 0
                startTime := 2, endTime := none })] }

/-- Tracker ops: two devices, one of which completes. -/
def halfDoneOps : List MemTracker.Op :=
  [.start "u" 2 0, .updateDevice "u" "d1" Core.statusCompleted 0 1]

/-- The snapshot `getProgress` returns for `halfDoneOps` at instant 10. -/
def halfDoneProg : MemTracker.Progress :=
  { updateID := "u", totalDevices := 2, completedDevices := 1, failedDevices := 0
    inProgressDevices := 0, bytesTransferred := 0, startTime := 0
    estimatedEnd := some 20
    deviceProgress :=
      [("d1", { deviceID := "d1", status := "completed", bytesTransferred := 0
                startTime := 1, endTime := some 1 })] }

/-- The fresh state stored by `Start("u", 1)` at instant 0. -/
def freshState : MemTracker.UpdateState :=
  { updateID := "u", totalDevices := 1, completedDevices := 0, failedDevices := 0
    inProgressDevices := 0, bytesTransferred := 0, startTime := 0, endTime := none
    deviceProgress := [] }

/-- A retry configuration with the Scenario-B attempt bound. -/
def twoAttempts : Retry.Config :=
  { maxAttempts := 2, initialDelay := 1, maxDelay := 30, multiplier := 2 }

end Fixtures

namespace Assoc

theorem lookupA_setA_self {α : Type} (k : String) (v : α) (l : List (String × α)) :
    lookupA k (setA k v l) = some v := by
  induction l with
  | nil => simp [lookupA, setA]
  | cons hd tl ih =>
    by_cases h : hd.1 = k
    · simp [lookupA, setA, h]
    · simp [lookupA, setA, h, ih]

theorem lookupA_setA_ne {α : Type} (k k' : String) (v : α) (l : List (String × α))
    (h : k' ≠ k) : lookupA k' (setA k v l) = lookupA k' l := by
  have hne : k ≠ k' := fun h' => h h'.symm
  induction l with
  | nil => simp [lookupA, setA, if_neg hne]
  | cons hd tl ih =>
    obtain ⟨a, b⟩ := hd
    by_cases hh : a = k
    · subst hh
      simp [lookupA, setA, if_neg hne]
    · simp only [setA, if_neg hh, lookupA, ih]

theorem setA_of_lookupA_none {α : Type} (k : String) (v : α) (l : List (String × α))
    (h : lookupA k l = none) : setA k v l = l ++ [(k, v)] := by
  induction l with
  | nil => simp [setA]
  | cons hd tl ih =>
    by_cases hh : hd.1 = k
    · simp [lookupA, hh] at h
    · simp only [lookupA, if_neg hh] at h
      simp [setA, hh, ih h]

theorem length_setA_of_lookupA_some {α : Type} (k : String) (v w : α)
    (l : List (String × α)) (h : lookupA k l = some w) :
    (setA k v l).length = l.length := by
  induction l with
  | nil => simp [lookupA] at h
  | cons hd tl ih =>
    by_cases hh : hd.1 = k
    · simp [setA, hh]
    · simp only [lookupA, if_neg hh] at h
      simp [setA, hh, ih h]

theorem countP_setA_of_lookupA_some {α : Type} (k : String) (v w : α)
    (l : List (String × α)) (p : String × α → Bool) (h : lookupA k l = some w) :
    (setA k v l).countP p + (if p (k, w) then 1 else 0) =
      l.countP p + (if p (k, v) then 1 else 0) := by
  induction l with
  | nil => simp [lookupA] at h
  | cons hd tl ih =>
    obtain ⟨a, b⟩ := hd
    by_cases hh : a = k
    · subst hh
      simp [lookupA] at h
      subst h
      simp [setA, List.countP_cons]
      omega
    · simp only [lookupA, if_neg hh] at h
      simp only [setA, if_neg hh, List.countP_cons]
      have := ih h
      omega

theorem countP_setA_of_lookupA_none {α : Type} (k : String) (v : α)
    (l : List (String × α)) (p : String × α → Bool) (h : lookupA k l = none) :
    (setA k v l).countP p = l.countP p + (if p (k, v) then 1 else 0) := by
  rw [setA_of_lookupA_none k v l h, List.countP_append]
  simp [List.countP_cons]

end Assoc

/-- C10: `ExecuteUpdateWithPayload` checks only that the update id is
non-empty; for every update with a non-empty id and a nil `DeviceFilter`
the prologue reaches the dereference of the nil filter pointer instead of
returning a validation error. -/
theorem executePrologue_nil_filter_deref (u : Core.Update)
    (hid : u.id ≠ "") (hf : u.deviceFilter = none) :
    Orchestrator.executeUpdatePrologue u = Orchestrator.ExecCheck.nilFilterDeref := by
  unfold Orchestrator.executeUpdatePrologue
  rw [if_neg hid, hf]

theorem executePrologue_nil_filter_deref_witness :
    Fixtures.nilFilterUpdate.id ≠ "" ∧
      Orchestrator.executeUpdatePrologue Fixtures.nilFilterUpdate =
        Orchestrator.ExecCheck.nilFilterDeref :=
  ⟨by decide, executePrologue_nil_filter_deref Fixtures.nilFilterUpdate (by decide) rfl⟩

/-- C4: `GetStatus` reports `in_progress` while `completed + failed <
total_devices`, and once `completed + failed = total_devices` it reports
`completed` when `failed = 0` and `failed` otherwise.  (Tracker counters
are non-negative, hence the hypothesis on `failedDevices`.) -/
theorem getStatus_aggregate_mapping (prog : MemTracker.Progress)
    (hf : 0 ≤ prog.failedDevices) :
    (prog.completedDevices + prog.failedDevices < prog.totalDevices →
      Orchestrator.getStatusOf prog = Core.statusInProgress) ∧
    (prog.completedDevices + prog.failedDevices = prog.totalDevices →
      Orchestrator.getStatusOf prog =
        if prog.failedDevices = 0 then Core.statusCompleted else Core.statusFailed) := by
  constructor
  · intro hlt
    unfold Orchestrator.getStatusOf
    rw [if_neg (by omega)]
  · intro heq
    unfold Orchestrator.getStatusOf
    rw [if_pos heq]
    by_cases h : prog.failedDevices = 0
    · rw [if_neg (by omega), if_pos h]
    · rw [if_pos (by omega), if_neg h]

theorem getStatus_aggregate_mapping_witness :
    Orchestrator.getStatusOf Fixtures.doneProg = Core.statusFailed := by
  have h := getStatus_aggregate_mapping Fixtures.doneProg (by decide)
  have h2 := h.2 (by decide)
  rw [h2]
  decide

/-- C3: an action whose first invocation returns an error tagged
non-retryable makes the retry policy's `Do` return that error after
exactly one invocation, with no further attempts and no backoff sleep. -/
theorem retry_do_nonretryable_single_attempt (config : Retry.Config)
    (fn : Nat → Option Retry.RError) (cancelled : Nat → Bool) (msg : String)
    (hmax : 1 ≤ config.maxAttempts)
    (h0 : fn 0 = some (Retry.RError.nonRetryable msg)) :
    Retry.Do config fn cancelled = ⟨some (Retry.RError.nonRetryable msg), 1, []⟩ := by
  unfold Retry.Do
  have hn : config.maxAttempts.toNat = (config.maxAttempts.toNat - 1) + 1 := by omega
  rw [hn]
  unfold Retry.doFrom
  rw [h0]
  simp [Retry.isNonRetryable]

theorem retry_do_nonretryable_single_attempt_witness :
    Retry.Do Retry.defaultConfig (fun _ => some (Retry.RError.nonRetryable "status 400"))
        (fun _ => false) =
      ⟨some (Retry.RError.nonRetryable "status 400"), 1, []⟩ :=
  retry_do_nonretryable_single_attempt Retry.defaultConfig
    (fun _ => some (Retry.RError.nonRetryable "status 400")) (fun _ => false)
    "status 400" (by decide) rfl

/-- C9 counterexample: cancelling the update `u1`, which is already in the
terminal state `completed`, rewrites its status to `cancelled`; the claim
that cancellation leaves a terminal update unchanged fails on the code. -/
theorem scheduler_cancel_terminal_counterexample :
    Scheduler.cancel Fixtures.completedSched "u1" =
      some ([("u1", { update := Fixtures.nilFilterUpdate, status := Core.statusCancelled
                      createdAt := 0, startedAt := some 1, hasCancelFn := false })], false) ∧
    Core.statusCancelled ≠ Core.statusCompleted := by
  constructor
  · decide
  · decide

/-- C9 amended: `Cancel` rejects unknown ids and otherwise marks the
update `cancelled` unconditionally — from any state, terminal states
`completed`/`failed` included. -/
theorem scheduler_cancel_marks_any_known (s : Scheduler.State) (updateID : String)
    (su : Scheduler.ScheduledUpdate) (h : Assoc.lookupA updateID s = some su) :
    ∃ s' fired, Scheduler.cancel s updateID = some (s', fired) ∧
      Assoc.lookupA updateID s' = some { su with status := Core.statusCancelled } := by
  refine ⟨_, su.hasCancelFn, ?_, Assoc.lookupA_setA_self updateID _ s⟩
  unfold Scheduler.cancel
  rw [h]

theorem scheduler_cancel_marks_any_known_witness :
    ∃ s' fired, Scheduler.cancel Fixtures.completedSched "u1" = some (s', fired) ∧
      Assoc.lookupA "u1" s' =
        some { update := Fixtures.nilFilterUpdate, status := Core.statusCancelled
               createdAt := 0, startedAt := some 1, hasCancelFn := false } :=
  scheduler_cancel_marks_any_known Fixtures.completedSched "u1"
    { update := Fixtures.nilFilterUpdate, status := Core.statusCompleted
      createdAt := 0, startedAt := some 1, hasCancelFn := false } rfl

/-- C8 counterexample: the in-memory registry's `List` returns a device
whose firmware version `9.9` is lexically above the filter band
`[1.0, 2.0]`; the firmware-band restriction claimed by the spec is not
applied. -/
theorem registry_firmware_band_counterexample :
    MemRegistry.listDevices [Fixtures.fwDevice] Fixtures.fwFilter =
        some [Fixtures.fwDevice] ∧
      Lex.inBand Fixtures.fwDevice.firmwareVersion Fixtures.fwFilter.minFirmware
        Fixtures.fwFilter.maxFirmware = false := by
  constructor
  · decide
  · decide

/-- C8 amended: `matchesFilter` ignores `MinFirmware` and `MaxFirmware`
entirely (the source skips firmware filtering), so membership in `List`'s
result is independent of the firmware band. -/
theorem matchesFilter_ignores_firmware_band (d : Core.Device) (f : Core.Filter)
    (lo hi : String) :
    MemRegistry.matchesFilter d { f with minFirmware := lo, maxFirmware := hi } =
      MemRegistry.matchesFilter d f := rfl

/-- C1 counterexample: a delivery whose `Push` returns a transient
(retryable) error makes the engine's device task record the device failed
after exactly one `Delivery.Push` invocation, although the default retry
policy allows 3 attempts — the device task itself runs no retry loop. -/
theorem updateDevice_single_push_counterexample :
    Orchestrator.updateDeviceTask true (some (Retry.RError.retryable "connection refused")) =
        ⟨1, Core.statusFailed⟩ ∧
      Retry.defaultConfig.maxAttempts = 3 ∧ (1 : Int) ≠ 3 := by
  refine ⟨rfl, rfl, by decide⟩

namespace MemTracker

theorem decCounter_bytesTransferred (st : UpdateState) (s : String) :
    (decCounter st s).bytesTransferred = st.bytesTransferred := by
  unfold decCounter
  split_ifs <;> rfl

theorem decCounter_deviceProgress (st : UpdateState) (s : String) :
    (decCounter st s).deviceProgress = st.deviceProgress := by
  unfold decCounter
  split_ifs <;> rfl

theorem incCounter_bytesTransferred (st : UpdateState) (s : String) :
    (incCounter st s).bytesTransferred = st.bytesTransferred := by
  unfold incCounter
  split_ifs <;> rfl

theorem incCounter_deviceProgress (st : UpdateState) (s : String) :
    (incCounter st s).deviceProgress = st.deviceProgress := by
  unfold incCounter
  split_ifs <;> rfl

theorem updateDeviceState_bytesTransferred (st : UpdateState) (d s : String)
    (b now : Int) :
    (updateDeviceState st d s b now).bytesTransferred = st.bytesTransferred + b := by
  unfold updateDeviceState
  simp [incCounter_bytesTransferred, decCounter_bytesTransferred]

theorem updateDeviceState_deviceProgress (st : UpdateState) (d s : String)
    (b now : Int) :
    (updateDeviceState st d s b now).deviceProgress =
      Assoc.setA d
        { getOrCreateDp st d now with
          status := s
          bytesTransferred := b
          endTime :=
            if s = Core.statusCompleted ∨ s = Core.statusFailed then some now
            else (getOrCreateDp st d now).endTime } st.deviceProgress := rfl

theorem updateDeviceState_lookup_bytes (st : UpdateState) (d s : String)
    (b now : Int) :
    (Assoc.lookupA d (updateDeviceState st d s b now).deviceProgress).map
      (·.bytesTransferred) = some b := by
  rw [updateDeviceState_deviceProgress, Assoc.lookupA_setA_self]
  rfl

theorem updateDevice_of_tracked (t : Tracker) (u d s : String) (b now : Int)
    (st : UpdateState) (h : Assoc.lookupA u t = some st) :
    updateDevice t u d s b now = Assoc.setA u (updateDeviceState st d s b now) t := by
  unfold updateDevice
  rw [h]

end MemTracker

/-- C6 counterexample: two successive `UpdateDevice` calls with byte deltas
5 and 3 leave the device's cumulative count at 3 (the value is assigned,
not added), not 5 + 3 — while the update's total does accumulate to 8. -/
theorem tracker_device_bytes_overwrite_counterexample :
    ((Assoc.lookupA "u" (MemTracker.runOps Fixtures.bytesOps)).map
      (fun st => (st.bytesTransferred,
        (Assoc.lookupA "d" st.deviceProgress).map (·.bytesTransferred)))) =
      some (8, some 3) ∧ (3 : Int) ≠ 5 + 3 :=
  ⟨by decide, by decide⟩

/-- C6 amended: for a tracked update, `UpdateDevice` adds `bytes_delta` to
the update's cumulative total but assigns it to the device record, so two
successive calls with deltas `a` then `b` leave the device's count at `b`
and the update's total raised by `a + b`. -/
theorem updateDevice_bytes_delta_semantics (t : MemTracker.Tracker) (u d : String)
    (st : MemTracker.UpdateState) (s1 s2 : String) (a b n1 n2 : Int)
    (h : Assoc.lookupA u t = some st) :
    ∃ st2,
      Assoc.lookupA u
          (MemTracker.updateDevice (MemTracker.updateDevice t u d s1 a n1) u d s2 b n2) =
        some st2 ∧
      (Assoc.lookupA d st2.deviceProgress).map (·.bytesTransferred) = some b ∧
      st2.bytesTransferred = st.bytesTransferred + a + b := by
  have h1 := MemTracker.updateDevice_of_tracked t u d s1 a n1 st h
  have h2 : Assoc.lookupA u (MemTracker.updateDevice t u d s1 a n1) =
      some (MemTracker.updateDeviceState st d s1 a n1) := by
    rw [h1]
    exact Assoc.lookupA_setA_self u _ t
  have h3 := MemTracker.updateDevice_of_tracked _ u d s2 b n2 _ h2
  refine ⟨MemTracker.updateDeviceState (MemTracker.updateDeviceState st d s1 a n1) d s2 b n2,
    ?_, ?_, ?_⟩
  · rw [h3]
    exact Assoc.lookupA_setA_self u _ _
  · exact MemTracker.updateDeviceState_lookup_bytes _ d s2 b n2
  · rw [MemTracker.updateDeviceState_bytesTransferred,
      MemTracker.updateDeviceState_bytesTransferred]

theorem updateDevice_bytes_delta_semantics_witness :
    ∃ st2,
      Assoc.lookupA "u"
          (MemTracker.updateDevice
            (MemTracker.updateDevice (MemTracker.runOps [.start "u" 1 0])
              "u" "d" Core.statusInProgress 5 1)
            "u" "d" Core.statusInProgress 3 2) =
        some st2 ∧
      (Assoc.lookupA "d" st2.deviceProgress).map (·.bytesTransferred) = some 3 ∧
      st2.bytesTransferred = Fixtures.freshState.bytesTransferred + 5 + 3 :=
  updateDevice_bytes_delta_semantics (MemTracker.runOps [.start "u" 1 0]) "u" "d"
    Fixtures.freshState Core.statusInProgress Core.statusInProgress 5 3 1 2 (by decide)

namespace MemTracker

theorem estimatedEndOf_spec (st : UpdateState) (now : Int) :
    (estimatedEndOf st now ≠ none ↔
      (0 < st.completedDevices + st.failedDevices ∧
        st.inProgressDevices + st.completedDevices + st.failedDevices <
          st.totalDevices)) ∧
    (estimatedEndOf st now ≠ none →
      estimatedEndOf st now =
        some (now +
          Int.tdiv (now - st.startTime) (st.completedDevices + st.failedDevices) *
            (st.totalDevices - (st.completedDevices + st.failedDevices)))) := by
  unfold estimatedEndOf
  split_ifs with hc
  · exact ⟨⟨fun _ => hc, fun _ => by simp⟩, fun _ => rfl⟩
  · exact ⟨⟨fun hne => absurd rfl hne, fun hcc => absurd hcc hc⟩,
      fun hne => absurd rfl hne⟩

end MemTracker

/-- C7 counterexample: with two tracked devices, one terminal (`completed`)
and one non-terminal (`in_progress`), `GetProgress` returns an undefined
(`none`) estimated end, refuting the claim that the estimate is defined
whenever at least one device is terminal and at least one is not. -/
theorem tracker_eta_undefined_counterexample :
    ((MemTracker.getProgress (MemTracker.runOps Fixtures.etaOps) "u" 10).map
        (fun p => (p.estimatedEnd, p.completedDevices, p.failedDevices,
          p.inProgressDevices, p.totalDevices))) = some (none, 1, 0, 1, 2) ∧
    ((MemTracker.getProgress (MemTracker.runOps Fixtures.etaOps) "u" 10).map
        (fun p => ((Assoc.lookupA "d1" p.deviceProgress).map (·.status),
          (Assoc.lookupA "d2" p.deviceProgress).map (·.status)))) =
      some (some Core.statusCompleted, some Core.statusInProgress) :=
  ⟨by decide, by decide⟩

/-- C7 amended: the progress returned by `GetProgress` carries a defined
`estimated_end` exactly when at least one device is terminal **and**
`in_progress + completed + failed < total_devices` (some device is not
even counted yet); when defined its value is
`now + ((now - start) tdiv done) * (total - done)`. -/
theorem getProgress_estimatedEnd_characterization (t : MemTracker.Tracker)
    (u : String) (now : Int) (prog : MemTracker.Progress)
    (h : MemTracker.getProgress t u now = some prog) :
    (prog.estimatedEnd ≠ none ↔
      (0 < prog.completedDevices + prog.failedDevices ∧
        prog.inProgressDevices + prog.completedDevices + prog.failedDevices <
          prog.totalDevices)) ∧
    (prog.estimatedEnd ≠ none →
      prog.estimatedEnd =
        some (now +
          Int.tdiv (now - prog.startTime) (prog.completedDevices + prog.failedDevices) *
            (prog.totalDevices - (prog.completedDevices + prog.failedDevices)))) := by
  unfold MemTracker.getProgress at h
  cases hl : Assoc.lookupA u t with
  | none => rw [hl] at h; cases h
  | some st =>
    rw [hl] at h
    injection h with h
    subst h
    exact MemTracker.estimatedEndOf_spec st now

theorem getProgress_estimatedEnd_characterization_witness :
    (Fixtures.halfDoneProg.estimatedEnd ≠ none ↔
      (0 < Fixtures.halfDoneProg.completedDevices + Fixtures.halfDoneProg.failedDevices ∧
        Fixtures.halfDoneProg.inProgressDevices + Fixtures.halfDoneProg.completedDevices +
            Fixtures.halfDoneProg.failedDevices < Fixtures.halfDoneProg.totalDevices)) ∧
    (Fixtures.halfDoneProg.estimatedEnd ≠ none →
      Fixtures.halfDoneProg.estimatedEnd =
        some (10 +
          Int.tdiv (10 - Fixtures.halfDoneProg.startTime)
              (Fixtures.halfDoneProg.completedDevices + Fixtures.halfDoneProg.failedDevices) *
            (Fixtures.halfDoneProg.totalDevices -
              (Fixtures.halfDoneProg.completedDevices + Fixtures.halfDoneProg.failedDevices)))) :=
  getProgress_estimatedEnd_characterization (MemTracker.runOps Fixtures.halfDoneOps)
    "u" 10 Fixtures.halfDoneProg (by decide)

namespace MemTracker

theorem decCounter_counters (st : UpdateState) (s : String) :
    (decCounter st s).completedDevices =
        st.completedDevices - (if s = Core.statusCompleted then 1 else 0) ∧
      (decCounter st s).failedDevices =
        st.failedDevices - (if s = Core.statusFailed then 1 else 0) ∧
      (decCounter st s).inProgressDevices =
        st.inProgressDevices - (if s = Core.statusInProgress then 1 else 0) := by
  unfold decCounter Core.statusInProgress Core.statusCompleted Core.statusFailed
  split_ifs <;> simp_all

theorem incCounter_counters (st : UpdateState) (s : String) :
    (incCounter st s).completedDevices =
        st.completedDevices + (if s = Core.statusCompleted then 1 else 0) ∧
      (incCounter st s).failedDevices =
        st.failedDevices + (if s = Core.statusFailed then 1 else 0) ∧
      (incCounter st s).inProgressDevices =
        st.inProgressDevices + (if s = Core.statusInProgress then 1 else 0) := by
  unfold incCounter Core.statusInProgress Core.statusCompleted Core.statusFailed
  split_ifs <;> simp_all

theorem counters_updateDeviceState (st : UpdateState) (d s : String) (b now : Int) :
    (updateDeviceState st d s b now).completedDevices =
        st.completedDevices -
          (if (getOrCreateDp st d now).status = Core.statusCompleted then 1 else 0) +
          (if s = Core.statusCompleted then 1 else 0) ∧
      (updateDeviceState st d s b now).failedDevices =
        st.failedDevices -
          (if (getOrCreateDp st d now).status = Core.statusFailed then 1 else 0) +
          (if s = Core.statusFailed then 1 else 0) ∧
      (updateDeviceState st d s b now).inProgressDevices =
        st.inProgressDevices -
          (if (getOrCreateDp st d now).status = Core.statusInProgress then 1 else 0) +
          (if s = Core.statusInProgress then 1 else 0) := by
  obtain ⟨d1, d2, d3⟩ := decCounter_counters st (getOrCreateDp st d now).status
  obtain ⟨i1, i2, i3⟩ := incCounter_counters (decCounter st (getOrCreateDp st d now).status) s
  refine ⟨?_, ?_, ?_⟩
  · have hpr : (updateDeviceState st d s b now).completedDevices =
        (incCounter (decCounter st (getOrCreateDp st d now).status) s).completedDevices := rfl
    rw [hpr, i1, d1]
  · have hpr : (updateDeviceState st d s b now).failedDevices =
        (incCounter (decCounter st (getOrCreateDp st d now).status) s).failedDevices := rfl
    rw [hpr, i2, d2]
  · have hpr : (updateDeviceState st d s b now).inProgressDevices =
        (incCounter (decCounter st (getOrCreateDp st d now).status) s).inProgressDevices := rfl
    rw [hpr, i3, d3]

theorem countStatus_updateDeviceState (st : UpdateState) (d s : String) (b now : Int)
    (c : String) (hc : c ≠ "") :
    (countStatus (updateDeviceState st d s b now).deviceProgress c : ℤ) =
      (countStatus st.deviceProgress c : ℤ) -
        (if (getOrCreateDp st d now).status = c then 1 else 0) +
        (if s = c then 1 else 0) := by
  rw [updateDeviceState_deviceProgress]
  unfold countStatus
  cases hdp : Assoc.lookupA d st.deviceProgress with
  | none =>
    have hg : getOrCreateDp st d now =
        { deviceID := d, status := "", bytesTransferred := 0
          startTime := now, endTime := none } := by
      unfold getOrCreateDp
      rw [hdp]
    rw [hg]
    rw [Assoc.countP_setA_of_lookupA_none d _ st.deviceProgress _ hdp]
    have hne : ¬(("" : String) = c) := fun h => hc h.symm
    by_cases h2 : s = c <;> simp [h2, hne]
  | some dpo =>
    have hg : getOrCreateDp st d now = dpo := by
      unfold getOrCreateDp
      rw [hdp]
    rw [hg]
    have hcnt := Assoc.countP_setA_of_lookupA_some d
      { dpo with
        status := s
        bytesTransferred := b
        endTime :=
          if s = Core.statusCompleted ∨ s = Core.statusFailed then some now
          else dpo.endTime } dpo st.deviceProgress
      (fun p => p.2.status = c) hdp
    by_cases h1 : dpo.status = c <;> by_cases h2 : s = c <;>
      simp [h1, h2] at hcnt ⊢ <;> omega

theorem counterInv_updateDeviceState (st : UpdateState) (d s : String) (b now : Int)
    (h : CounterInv st) : CounterInv (updateDeviceState st d s b now) := by
  obtain ⟨hc, hf, hi⟩ := h
  obtain ⟨e1, e2, e3⟩ := counters_updateDeviceState st d s b now
  refine ⟨?_, ?_, ?_⟩
  · rw [e1, hc, countStatus_updateDeviceState st d s b now Core.statusCompleted (by decide)]
  · rw [e2, hf, countStatus_updateDeviceState st d s b now Core.statusFailed (by decide)]
  · rw [e3, hi, countStatus_updateDeviceState st d s b now Core.statusInProgress (by decide)]

theorem counterInv_freshStart (u : String) (total now : Int) :
    CounterInv
      { updateID := u, totalDevices := total, completedDevices := 0
        failedDevices := 0, inProgressDevices := 0, bytesTransferred := 0
        startTime := now, endTime := none, deviceProgress := [] } := by
  refine ⟨?_, ?_, ?_⟩ <;> simp [countStatus]

theorem trackerInv_applyOp (t : Tracker) (op : Op) (h : TrackerInv t) :
    TrackerInv (applyOp t op) := by
  cases op with
  | start u total now =>
    intro u' st' hl
    simp only [applyOp] at hl
    unfold start at hl
    by_cases hu : u' = u
    · subst hu
      rw [Assoc.lookupA_setA_self] at hl
      injection hl with hl
      subst hl
      exact counterInv_freshStart u' total now
    · rw [Assoc.lookupA_setA_ne u u' _ t hu] at hl
      exact h u' st' hl
  | updateDevice u d s b now =>
    intro u' st' hl
    simp only [applyOp] at hl
    unfold updateDevice at hl
    cases hlu : Assoc.lookupA u t with
    | none =>
      rw [hlu] at hl
      exact h u' st' hl
    | some st0 =>
      rw [hlu] at hl
      by_cases hu : u' = u
      · subst hu
        rw [Assoc.lookupA_setA_self] at hl
        injection hl with hl
        subst hl
        exact counterInv_updateDeviceState st0 d s b now (h u' st0 hlu)
      · rw [Assoc.lookupA_setA_ne u u' _ t hu] at hl
        exact h u' st' hl
  | complete u now =>
    intro u' st' hl
    simp only [applyOp] at hl
    unfold complete at hl
    cases hlu : Assoc.lookupA u t with
    | none =>
      rw [hlu] at hl
      exact h u' st' hl
    | some st0 =>
      rw [hlu] at hl
      by_cases hu : u' = u
      · subst hu
        rw [Assoc.lookupA_setA_self] at hl
        injection hl with hl
        subst hl
        exact h u' st0 hlu
      · rw [Assoc.lookupA_setA_ne u u' _ t hu] at hl
        exact h u' st' hl

theorem trackerInv_foldl (ops : List Op) (t : Tracker) (h : TrackerInv t) :
    TrackerInv (ops.foldl applyOp t) := by
  induction ops generalizing t with
  | nil => exact h
  | cons op rest ih => exact ih (applyOp t op) (trackerInv_applyOp t op h)

theorem trackerInv_runOps (ops : List Op) : TrackerInv (runOps ops) :=
  trackerInv_foldl ops [] (fun u st hl => by simp [Assoc.lookupA] at hl)

theorem countStatus_three_le_length (l : List (String × DeviceProgress)) :
    countStatus l Core.statusCompleted + countStatus l Core.statusFailed +
        countStatus l Core.statusInProgress ≤ l.length := by
  induction l with
  | nil => simp [countStatus]
  | cons hd tl ih =>
    unfold countStatus at ih ⊢
    simp only [List.countP_cons, List.length_cons]
    have n1 : Core.statusCompleted ≠ Core.statusFailed := by decide
    have n2 : Core.statusCompleted ≠ Core.statusInProgress := by decide
    have n3 : Core.statusFailed ≠ Core.statusCompleted := by decide
    have n4 : Core.statusFailed ≠ Core.statusInProgress := by decide
    have n5 : Core.statusInProgress ≠ Core.statusCompleted := by decide
    have n6 : Core.statusInProgress ≠ Core.statusFailed := by decide
    by_cases h1 : hd.2.status = Core.statusCompleted
    · simp [h1, n1, n2]
      omega
    · by_cases h2 : hd.2.status = Core.statusFailed
      · simp [h2, n3, n4]
        omega
      · by_cases h3 : hd.2.status = Core.statusInProgress
        · simp [h3, n5, n6]
          omega
        · simp [h1, h2, h3]
          omega

end MemTracker

/-- C5 counterexample: pushing two distinct devices of a one-device update
to `in_progress` drives `completed + failed + in_progress` to 2 while
`total_devices` is 1, violating the claimed invariant. -/
theorem tracker_sum_exceeds_total_counterexample :
    Assoc.lookupA "u" (MemTracker.runOps Fixtures.overcountOps) =
        some Fixtures.overcountState ∧
      Fixtures.overcountState.completedDevices + Fixtures.overcountState.failedDevices +
          Fixtures.overcountState.inProgressDevices = 2 ∧
      Fixtures.overcountState.totalDevices = 1 ∧ ¬((2 : ℤ) ≤ 1) :=
  ⟨by decide, by decide, by decide, by decide⟩

/-- C5 amended: after any sequence of tracker operations the counters
satisfy `completed + failed + in_progress ≤` the number of distinct device
records of the update — each device contributes at most one counted
status — so the spec's `≤ total_devices` bound holds exactly when at most
`total_devices` distinct devices are reported (as the engine does). -/
theorem tracker_counter_sum_bounded (ops : List MemTracker.Op) (u : String)
    (st : MemTracker.UpdateState)
    (h : Assoc.lookupA u (MemTracker.runOps ops) = some st) :
    st.completedDevices + st.failedDevices + st.inProgressDevices ≤
      (st.deviceProgress.length : ℤ) := by
  obtain ⟨hc, hf, hi⟩ := MemTracker.trackerInv_runOps ops u st h
  rw [hc, hf, hi]
  have h3 := MemTracker.countStatus_three_le_length st.deviceProgress
  omega

theorem tracker_counter_sum_bounded_witness :
    Fixtures.overcountState.completedDevices + Fixtures.overcountState.failedDevices +
        Fixtures.overcountState.inProgressDevices ≤
      (Fixtures.overcountState.deviceProgress.length : ℤ) :=
  tracker_counter_sum_bounded Fixtures.overcountOps "u" Fixtures.overcountState
    (by decide)

namespace Retry

theorem doFrom_all_retryable (config : Config) (fn : Nat → Option RError)
    (cancelledDuringSleep : Nat → Bool)
    (htrans : ∀ i, ∃ m, fn i = some (RError.retryable m))
    (hnc : ∀ i, cancelledDuringSleep i = false) :
    ∀ r a sleeps e, 1 ≤ r →
      ∃ m sl, doFrom config fn cancelledDuringSleep r a sleeps e =
        ⟨some (RError.retryable m), a + r, sl⟩ := by
  intro r
  induction r with
  | zero =>
    intro a sleeps e h
    exact absurd h (by omega)
  | succ r ih =>
    intro a sleeps e _
    obtain ⟨m, hm⟩ := htrans a
    cases r with
    | zero =>
      refine ⟨m, sleeps, ?_⟩
      unfold doFrom
      rw [hm]
      rfl
    | succ r' =>
      obtain ⟨m', sl, hrec⟩ :=
        ih (a + 1) (sleeps ++ [calculateBackoff config a]) (some (RError.retryable m))
          (by omega)
      refine ⟨m', sl, ?_⟩
      unfold doFrom
      rw [hm]
      simp only [isNonRetryable, hnc a, Bool.false_eq_true, if_false]
      rw [hrec]
      have : a + 1 + (r' + 1) = a + (r' + 1 + 1) := by omega
      rw [this]

end Retry

/-- C1 amended: the engine's device task invokes `Delivery.Push` exactly
once; the retry policy lives inside the HTTP delivery's `Push`, so when
every transport attempt fails with a retryable error the push is attempted
exactly `max_attempts` times inside that single `Push` call, after which
the device task records the device failed. -/
theorem updateDeviceViaHTTP_transient_exhausts_attempts (config : Retry.Config)
    (attempt : Nat → Option Retry.RError) (cancelledDuringSleep : Nat → Bool)
    (hmax : 1 ≤ config.maxAttempts)
    (htrans : ∀ i, ∃ m, attempt i = some (Retry.RError.retryable m))
    (hnc : ∀ i, cancelledDuringSleep i = false) :
    Orchestrator.updateDeviceViaHTTP true config attempt cancelledDuringSleep =
      (⟨1, Core.statusFailed⟩, config.maxAttempts.toNat) := by
  obtain ⟨m, sl, hdo⟩ :=
    Retry.doFrom_all_retryable config attempt cancelledDuringSleep htrans hnc
      config.maxAttempts.toNat 0 [] none (by omega)
  unfold Orchestrator.updateDeviceViaHTTP Orchestrator.httpPush Retry.Do
  rw [if_pos rfl, hdo]
  simp

theorem updateDeviceViaHTTP_transient_exhausts_attempts_witness :
    Orchestrator.updateDeviceViaHTTP true Fixtures.twoAttempts
        (fun _ => some (Retry.RError.retryable "connection timeout")) (fun _ => false) =
      (⟨1, Core.statusFailed⟩, 2) :=
  updateDeviceViaHTTP_transient_exhausts_attempts Fixtures.twoAttempts
    (fun _ => some (Retry.RError.retryable "connection timeout")) (fun _ => false)
    (by decide) (fun _ => ⟨"connection timeout", rfl⟩) (fun _ => rfl)

/-- C2: the code closes and drains the worker pool only in the deferred
`pool.Stop()`, which runs after step 7's `update.completed` publish; a run
of `ExecuteUpdateWithPayload` over one device can therefore publish its
`device.started`/`device.completed` events after `update.completed`.  The
exhibited trace is valid for the embedded program order yet has
`update.completed` strictly before the device's terminal event, refuting
the claimed ordering (the code's own step-6 comment asserts the wait
happens before step 7). -/
theorem executeUpdate_completed_before_drain :
    ExecTrace.validTrace ["d1"] (fun _ => true) ExecTrace.lateTaskTrace ∧
      ExecTrace.occursBefore ExecTrace.Ev.updateCompleted
        (ExecTrace.Ev.deviceCompleted "d1") ExecTrace.lateTaskTrace := by
  constructor
  · refine ⟨by decide, ?_, ?_, by decide⟩
    · decide
    · decide
  · exact ⟨2, 4, by omega, rfl, rfl⟩
